import Mathlib

/-!
# Verification of the HumanLayer daemon's MCP approval gateway

This development shallowly embeds the Go sources of the `hld` daemon's
MCP protocol gateway (package `mcp`: `handleRequestApproval`,
`listenForApprovalDecisions`, `encodeImages`, `detectMimeType`,
`ServeHTTP`) and the ephemeral advisory-chat handler (package
`handlers`: `HandleEphemeralChat`, `runEphemeralQuery`), and proves or
refutes the specification's claims about them.

Concurrency between the request handler and the event-listener loop is
embedded as a labelled small-step transition system over an explicit
gateway state holding the `pendingApprovals` lookup (Go `sync.Map`
from tool-use id to a capacity-1 channel) and the phase of one
in-flight request.  Go channels of capacity 1 become `Option` slots;
Go byte slices become `List Nat`; the file system read by
`encodeImages` becomes an explicit oracle `String → Option (List Nat)`.
-/

namespace HLD

/-! ## Image encoding (`encodeImages`, `detectMimeType`, Go `filepath.Ext`,
Go `base64.StdEncoding`) -/

/-- Go `filepath.Ext`, auxiliary scan: walks the path backwards (the first
argument is the reversed character list), accumulating the suffix seen so
far; stops at a path separator, returns from the last dot of the final
path element. -/
def filepathExtAux : List Char → List Char → String
  | [], _ => ""
  | c :: restRev, acc =>
    if c = '/' then ""
    else if c = '.' then String.mk (c :: acc)
    else filepathExtAux restRev (c :: acc)

/-- Go `filepath.Ext(path)`: the suffix beginning at the final dot in the
final slash-separated element of `path`; empty if there is no dot. -/
def filepathExt (path : String) : String :=
  filepathExtAux path.toList.reverse []

/-- Go `strings.ToLower` restricted to its ASCII behaviour, which is all
the extension comparison below exercises (Go's function additionally
lower-cases non-ASCII letters). -/
def lowerAscii (s : String) : String :=
  String.mk (s.toList.map Char.toLower)

/-- Function `detectMimeType` from the MCP gateway source: lower-cases the
extension and maps the four recognised image extensions to their MIME
types, anything else to the empty string. -/
def detectMimeType (path : String) : String :=
  let ext := lowerAscii (filepathExt path)
  if ext = ".png" then "image/png"
  else if ext = ".jpg" ∨ ext = ".jpeg" then "image/jpeg"
  else if ext = ".gif" then "image/gif"
  else if ext = ".webp" then "image/webp"
  else ""

/-- The standard base64 alphabet used by Go's `base64.StdEncoding`. -/
def base64Alphabet : List Char :=
  "ABCDEFGHIJKLMNOPQRSTUVWXYZabcdefghijklmnopqrstuvwxyz0123456789+/".toList

/-- The character the standard base64 alphabet assigns to a 6-bit value. -/
def b64Char (n : Nat) : Char := base64Alphabet.getD n '?'

/-- Go `base64.StdEncoding.EncodeToString`: bytes are consumed in groups
of three and emitted as four alphabet characters, with `=` padding for a
trailing group of one byte (two characters, two pads) or two bytes
(three characters, one pad). -/
def base64Encode : List Nat → String
  | [] => ""
  | [b0] =>
    String.mk [b64Char (b0 / 4 % 64), b64Char (b0 % 4 * 16), '=', '=']
  | [b0, b1] =>
    String.mk [b64Char (b0 / 4 % 64), b64Char (b0 % 4 * 16 + b1 / 16 % 16),
      b64Char (b1 % 16 * 4), '=']
  | b0 :: b1 :: b2 :: rest =>
    String.mk [b64Char (b0 / 4 % 64), b64Char (b0 % 4 * 16 + b1 / 16 % 16),
      b64Char (b1 % 16 * 4 + b2 / 64 % 4), b64Char (b2 % 64)]
      ++ base64Encode rest

/-- Structure `EncodedImage` from the MCP gateway source: a MIME type together
with the base64-encoded file contents. -/
structure EncodedImage where
  mimeType : String
  data : String
deriving DecidableEq, Repr

/-- Function `encodeImages` from the MCP gateway source, with the file system
passed explicitly: `readFile path` is `none` when Go's `os.ReadFile`
would return an error, otherwise the file's bytes.  Unreadable files and
files whose extension has no known MIME type are skipped with a logged
warning; every kept file contributes its MIME type and the standard
base64 encoding of its bytes, in input order. -/
def encodeImages (readFile : String → Option (List Nat)) :
    List String → List EncodedImage
  | [] => []
  | path :: rest =>
    match readFile path with
    | none => encodeImages readFile rest
    | some data =>
      let mimeType := detectMimeType path
      if mimeType = "" then encodeImages readFile rest
      else ⟨mimeType, base64Encode data⟩ :: encodeImages readFile rest

/-! ## Gateway data model (`ApprovalDecision`, the MCP response shape,
the `pendingApprovals` lookup) -/

/-- Structure `ApprovalDecision` from the MCP gateway source: the outcome
of an approval request as delivered to a waiting handler. -/
structure ApprovalDecision where
  approved : Bool
  comment : String
  imagePaths : List String
deriving DecidableEq, Repr

/-- The JSON object the gateway marshals as the `request_approval` tool
response.  The Go source builds a `map[string]interface{}` holding
`behavior` always, `updatedInput` only on allow, `message` only on deny,
and `images` only when at least one attachment encoded successfully; the
optional fields model key presence in that map.  The tool input is kept
opaque as the string `updatedInput` carries. -/
structure ApprovalResponse where
  behavior : String
  updatedInput : Option String
  message : Option String
  images : Option (List EncodedImage)
deriving DecidableEq, Repr

/-- The response the gateway returns in auto-deny-all mode
(`handleRequestApproval`, auto-deny branch). -/
def autoDenyResponse : ApprovalResponse :=
  ⟨"deny", none, some "Auto-denied for testing", none⟩

/-- The response the gateway returns for an approval already in status
`approved` when `CreateApprovalWithToolUseID` returns
(`handleRequestApproval`, auto-approved branch): allow plus the original
input. -/
def autoApproveResponse (input : String) : ApprovalResponse :=
  ⟨"allow", some input, none, none⟩

/-- Translation of a received decision into the response object
(`handleRequestApproval`, the decision branch of the select): denied
gives deny plus the human's comment, approved gives allow plus the
original input; when the decision carries image paths and at least one
of them encodes, the encoded images are added under `images`. -/
def translateDecision (readFile : String → Option (List Nat))
    (input : String) (d : ApprovalDecision) : ApprovalResponse :=
  let base : ApprovalResponse :=
    if d.approved then ⟨"allow", some input, none, none⟩
    else ⟨"deny", none, some d.comment, none⟩
  if 0 < d.imagePaths.length then
    let images := encodeImages readFile d.imagePaths
    if 0 < images.length then { base with images := some images } else base
  else base

/-- Result of `CreateApprovalWithToolUseID` as the gateway consumes it:
the approval's id and its status string ("pending", "approved" or
"denied" per the data model). -/
structure CreateApprovalResult where
  id : String
  status : String
deriving DecidableEq, Repr

/-- How one call of `handleRequestApproval` proceeds up to the point
where it either returns or parks: `immediate r` means the handler
returned the response `r` without touching the `pendingApprovals`
lookup; `failure msg` means it returned a Go error; `park tid` means it
fell through to register a capacity-1 wait handle under `tid` and block
on the select. -/
inductive HandlerOutcome
  | immediate (r : ApprovalResponse)
  | failure (msg : String)
  | park (toolUseID : String)
deriving DecidableEq, Repr

/-- The sequential body of `handleRequestApproval` before any blocking
(source lines up to the wait-handle registration), translated branch by
branch: the auto-deny-all check comes first; then the session id is read
from the call context (a failed type assertion or an absent value gives
the empty string); then `CreateApprovalWithToolUseID` is called, its
error modelled by `createResult = none`; an `approved` status returns
allow immediately; anything else parks.  The `json.Marshal` of the tool
input cannot fail on a value decoded from the request's JSON and is
elided. -/
def requestApprovalEntry (autoDenyAll : Bool) (sessionID : String)
    (input : String) (createResult : Option CreateApprovalResult)
    (toolUseID : String) : HandlerOutcome :=
  if autoDenyAll then
    .immediate autoDenyResponse
  else if sessionID = "" then
    .failure "missing session_id in context"
  else
    match createResult with
    | none => .failure "failed to create approval"
    | some approval =>
      if approval.status = "approved" then
        .immediate (autoApproveResponse input)
      else
        .park toolUseID

/-- Session-id extraction in `ServeHTTP`: the `X-Session-ID` header wins;
when it is empty the `Mcp-Session-Id` header is used when non-empty;
otherwise the session id stays empty — absence is propagated, not
defaulted, and the empty id is rejected later by
`handleRequestApproval`. -/
def extractSessionID (xSessionID mcpSessionID : String) : String :=
  if xSessionID = "" then
    if mcpSessionID ≠ "" then mcpSessionID else xSessionID
  else xSessionID

/-! ## The pendingApprovals lookup and the listener loop

The Go `sync.Map` from tool-use id to `chan ApprovalDecision` (capacity
1) is embedded as an association list from the id to an `Option`
decision slot: `none` is an empty channel, `some d` a channel holding
the one buffered decision. -/

/-- Association-list lookup, the embedding of `sync.Map.Load` (and of
store lookups elsewhere). -/
def alLoad {α : Type} : List (String × α) → String → Option α
  | [], _ => none
  | (k, v) :: rest, key => if k = key then some v else alLoad rest key

/-- Association-list insert-or-replace, the embedding of
`sync.Map.Store`. -/
def alStore {α : Type} : List (String × α) → String → α → List (String × α)
  | [], key, v => [(key, v)]
  | (k, w) :: rest, key, v =>
    if k = key then (k, v) :: rest else (k, w) :: alStore rest key v

/-- Association-list removal, the embedding of `sync.Map.Delete`. -/
def alDelete {α : Type} : List (String × α) → String → List (String × α)
  | [], _ => []
  | (k, w) :: rest, key =>
    if k = key then alDelete rest key else (k, w) :: alDelete rest key

/-- The `pendingApprovals` lookup: tool-use id to capacity-1 decision
slot. -/
abbrev PendingMap := List (String × Option ApprovalDecision)

/-- An approval-resolved event as the listener loop reads it out of
`event.Data` (`tool_use_id`, `approved`, `response_text`,
`image_paths`); a missing or mistyped field yields the Go type
assertion's zero value, so the typed fields here stand for the result of
those assertions. -/
structure ResolvedEvent where
  toolUseID : String
  approved : Bool
  comment : String
  imagePaths : List String
deriving DecidableEq, Repr

/-- The decision the listener builds from an event's payload. -/
def decisionOfEvent (e : ResolvedEvent) : ApprovalDecision :=
  ⟨e.approved, e.comment, e.imagePaths⟩

/-- One iteration of `listenForApprovalDecisions` on one event: an empty
tool-use id is skipped; an id with no registered handle is skipped (a
normal condition); a registered handle with a free capacity-1 slot
receives the decision (the non-blocking send succeeds); a full slot is
skipped (the select's `default` branch).  Totality of this function is
the embedding of "never blocks, never panics". -/
def listenerStep (m : PendingMap) (e : ResolvedEvent) : PendingMap :=
  if e.toolUseID = "" then m
  else
    match alLoad m e.toolUseID with
    | none => m
    | some slot =>
      match slot with
      | none => alStore m e.toolUseID (some (decisionOfEvent e))
      | some _ => m

/-- The listener loop over a finite stream of events. -/
def listenerRun (m : PendingMap) (es : List ResolvedEvent) : PendingMap :=
  es.foldl listenerStep m

/-! ## Small-step model of one in-flight request against the listener

The handler goroutine for one `request_approval` call and the gateway's
listener goroutine share only the `pendingApprovals` lookup.  A
configuration holds that lookup plus the handler's control point; the
listener's processing of an event may interleave at any point, which is
exactly the freedom the label `deliver` has below. -/

/-- Result of one `handleRequestApproval` call: a tool response or a Go
error (`missing session_id`, `failed to create approval`, or the
context's cancellation error). -/
inductive ReqResult
  | ok (r : ApprovalResponse)
  | err (msg : String)
deriving DecidableEq, Repr

/-- Control point of the handler goroutine.  `created tid` is the window
after `CreateApprovalWithToolUseID` returned a pending approval but
before `pendingApprovals.Store` has executed; `waiting tid` is the
select over the decision channel and the context; `gotDecision` is after
receiving from the channel but before the deferred `Delete` has run;
`ctxCancelled` likewise for the cancellation branch. -/
inductive Phase
  | start
  | created (toolUseID : String)
  | waiting (toolUseID : String)
  | gotDecision (toolUseID : String) (d : ApprovalDecision)
  | ctxCancelled (toolUseID : String)
  | returned (r : ReqResult)
deriving DecidableEq, Repr

/-- Shared state: the `pendingApprovals` lookup plus the handler's
control point. -/
structure Config where
  pending : PendingMap
  phase : Phase
deriving DecidableEq, Repr

/-- Immutable data of one call: the gateway's auto-deny flag, the
session id extracted from the call context, the raw tool input, the
result `CreateApprovalWithToolUseID` would produce, the tool-use id,
and the file-system oracle used when encoding attachment images. -/
structure ReqCtx where
  autoDenyAll : Bool
  sessionID : String
  input : String
  createResult : Option CreateApprovalResult
  toolUseID : String
  readFile : String → Option (List Nat)

/-- Transition labels: `runEntry` is the handler's sequential body up to
return-or-park; `register` is `pendingApprovals.Store`; `deliver e` is
the listener processing one event (enabled at any time); `receive` is
the handler reading the buffered decision from its channel; `cancel` is
the call context ending; `finish` is the branch body plus the deferred
`pendingApprovals.Delete` and the return. -/
inductive GLabel
  | runEntry
  | register
  | deliver (e : ResolvedEvent)
  | receive
  | cancel
  | finish
deriving DecidableEq, Repr

/-- One step of the interleaved system; `none` when the label is not
enabled in the configuration. -/
def step (ctx : ReqCtx) (cfg : Config) : GLabel → Option Config
  | .runEntry =>
    match cfg.phase with
    | .start =>
      match requestApprovalEntry ctx.autoDenyAll ctx.sessionID ctx.input
          ctx.createResult ctx.toolUseID with
      | .immediate r => some { cfg with phase := .returned (.ok r) }
      | .failure msg => some { cfg with phase := .returned (.err msg) }
      | .park tid => some { cfg with phase := .created tid }
    | _ => none
  | .register =>
    match cfg.phase with
    | .created tid =>
      some ⟨alStore cfg.pending tid none, .waiting tid⟩
    | _ => none
  | .deliver e => some { cfg with pending := listenerStep cfg.pending e }
  | .receive =>
    match cfg.phase with
    | .waiting tid =>
      match alLoad cfg.pending tid with
      | some (some d) => some ⟨alStore cfg.pending tid none, .gotDecision tid d⟩
      | _ => none
    | _ => none
  | .cancel =>
    match cfg.phase with
    | .waiting tid => some { cfg with phase := .ctxCancelled tid }
    | _ => none
  | .finish =>
    match cfg.phase with
    | .gotDecision tid d =>
      some ⟨alDelete cfg.pending tid,
        .returned (.ok (translateDecision ctx.readFile ctx.input d))⟩
    | .ctxCancelled tid =>
      some ⟨alDelete cfg.pending tid, .returned (.err "context canceled")⟩
    | _ => none

/-- Run a finite schedule of labels; `none` as soon as a label is not
enabled. -/
def runTrace (ctx : ReqCtx) : Config → List GLabel → Option Config
  | cfg, [] => some cfg
  | cfg, l :: ls =>
    match step ctx cfg l with
    | none => none
    | some cfg2 => runTrace ctx cfg2 ls

/-! ## The Approval Manager's decision commit -/

/-- Status of a stored approval (data-model enumeration pending /
approved / denied). -/
inductive ApprovalStatus
  | pending
  | approved
  | denied
deriving DecidableEq, Repr

/-- The approval records the manager guards, keyed by tool-use id. -/
abbrev ApprovalStore := List (String × ApprovalStatus)

/-- One decision submission: target tool-use id, approve-or-deny, the
human's comment and attachment references. -/
structure DecideCall where
  toolUseID : String
  approve : Bool
  comment : String
  attachments : List String
deriving DecidableEq, Repr

/-- Outcome of one `Decide` call. -/
inductive DecideResult
  | ok
  | notFound
  | alreadyResolved
deriving DecidableEq, Repr

/-- Modelled from the spec: the Approval Manager's `Decide` operation is
declared and called by the sources but its body (package `approval`) is
not among them.  Per the spec it fails with NotFound when no approval
exists for the id, fails with AlreadyResolved when the approval is no
longer pending, and otherwise commits the transition pending to
approved-or-denied and publishes exactly one resolution event carrying
the tool-use id, the boolean outcome, the comment and the attachment
references.  The guarded transition is atomic, so concurrent
submissions behave as some sequential order of calls. -/
def decideOne (st : ApprovalStore) (c : DecideCall) :
    ApprovalStore × DecideResult × Option ResolvedEvent :=
  match alLoad st c.toolUseID with
  | none => (st, .notFound, none)
  | some .pending =>
    (alStore st c.toolUseID (if c.approve then .approved else .denied), .ok,
      some ⟨c.toolUseID, c.approve, c.comment, c.attachments⟩)
  | some _ => (st, .alreadyResolved, none)

/-- Modelled from the spec: a sequence of `Decide` submissions applied
in their linearisation order, collecting every call's result and every
published event. -/
def decideRun (st : ApprovalStore) :
    List DecideCall → ApprovalStore × List DecideResult × List ResolvedEvent
  | [] => (st, [], [])
  | c :: cs =>
    match decideOne st c with
    | (st1, r, ev) =>
      match decideRun st1 cs with
      | (st2, rs, evs) => (st2, r :: rs, ev.toList ++ evs)

/-! ## The ephemeral advisory chat handler -/

/-- Session record as the chat handler reads it from the store
(`store.Session` fields the handler consumes). -/
structure StoreSession where
  id : String
  query : String
  summary : String
  workingDir : String
  status : String
deriving DecidableEq, Repr

/-- Conversation event fields the chat handler consumes. -/
structure ConversationEvent where
  eventType : String
  role : String
  content : String
  toolName : String
deriving DecidableEq, Repr

/-- Store operations the daemon's handlers can issue.  The write
operations exist in the store contract; the chat handler is claimed
never to issue one. -/
inductive StoreOp
  | getSession (id : String)
  | getSessionConversation (id : String)
  | createApproval (sessionID : String) (toolName : String)
  | resolveApproval (id : String)
  | updateSession (id : String)
  | createConversationEvent (sessionID : String)
deriving DecidableEq, Repr

/-- Whether a store operation only reads. -/
def StoreOp.isRead : StoreOp → Bool
  | .getSession _ => true
  | .getSessionConversation _ => true
  | _ => false

/-- Parsed body of an ephemeral chat request. -/
structure EphemeralChatRequest where
  message : String
  includeRecentEvents : Bool
  maxEvents : Int
deriving DecidableEq, Repr

/-- Session configuration `runEphemeralQuery` builds; the model and
output-format constants of the external `claudecode` package are kept as
their symbolic names. -/
structure SessionConfig where
  query : String
  model : String
  outputFormat : String
  maxTurns : Int
  workingDir : String
deriving DecidableEq, Repr

/-- Function `runEphemeralQuery` from the chat handler source, up to the
launch itself: the configuration handed to `LaunchAndWait` — the built
query, the Sonnet model, JSON output, a single turn, and the session's
working directory. -/
def runEphemeralQueryConfig (session : StoreSession) (query : String) :
    SessionConfig :=
  ⟨query, "ModelSonnet", "OutputJSON", 1, session.workingDir⟩

/-- Summary line produced for one conversation event (the loop body over
`recentEvents`): a message with non-empty content becomes "Role:
content" with content truncated past 500 (the Go code measures UTF-8
bytes; the model counts characters, which agrees on ASCII); a tool call
with a name becomes "Tool Call: name"; anything else contributes
nothing. -/
def eventSummary (e : ConversationEvent) : Option String :=
  if e.eventType = "message" ∧ e.content ≠ "" then
    let role := if e.role = "assistant" then "Assistant" else "User"
    let content :=
      if 500 < e.content.length then e.content.take 500 ++ "..." else e.content
    some (role ++ ": " ++ content)
  else if e.eventType = "tool_call" ∧ e.toolName ≠ "" then
    some ("Tool Call: " ++ e.toolName)
  else none

/-- The suffix of the conversation the handler keeps: when more than
`maxEvents` events exist, only the last `maxEvents`; otherwise all of
them (`startIdx` computation of the source; `maxEvents` is the
already-defaulted value, positive in every run the claims concern). -/
def recentEvents (events : List ConversationEvent) (maxEvents : Int) :
    List ConversationEvent :=
  if maxEvents < (events.length : Int) then
    events.drop (((events.length : Int) - maxEvents).toNat)
  else events

/-- The context block built from the session record and, optionally, the
recent conversation events (`contextParts` construction of the
source). -/
def buildSessionContext (session : StoreSession) (includeRecent : Bool)
    (recent : List ConversationEvent) : String :=
  let parts0 : List String := ["Session Query: " ++ session.query]
  let parts1 := parts0 ++
    (if session.summary ≠ "" then ["Session Summary: " ++ session.summary] else [])
  let parts2 := parts1 ++
    (if session.workingDir ≠ ""
      then ["Working Directory: " ++ session.workingDir] else [])
  let parts3 := parts2 ++ ["Session Status: " ++ session.status]
  let parts4 :=
    if includeRecent then
      let summaries := recent.filterMap eventSummary
      if 0 < summaries.length then
        parts3 ++ ["\nRecent Conversation:\n" ++ String.intercalate "\n" summaries]
      else parts3
    else parts3
  String.intercalate "\n" parts4

/-- The full prompt handed to the model (the `fmt.Sprintf` template of
the source). -/
def ephemeralQueryText (sessionContext message : String) : String :=
  "You are answering a clarifying question about a coding session.\n" ++
  "The user is reviewing a session and wants to understand what's happening before making a decision.\n" ++
  "Provide concise, helpful answers based on the context below.\n\n" ++
  "Session Context:\n" ++ sessionContext ++
  "\n\nUser's Question: " ++ message ++
  "\n\nImportant: Keep your response focused and concise. This is an ephemeral chat."

/-- Outcome of one chat request: an HTTP error status or the model's
answer. -/
inductive ChatOutcome
  | httpError (status : Nat) (msg : String)
  | success (content : String)
deriving DecidableEq, Repr

/-- Trace of one chat request: its outcome, every store operation it
issued, and the session configuration it launched, when it got that
far. -/
structure ChatRun where
  outcome : ChatOutcome
  ops : List StoreOp
  launched : Option SessionConfig
deriving DecidableEq, Repr

/-- Function `HandleEphemeralChat` from the chat handler source, with
its collaborators explicit: `claudeAvailable` is the nil check on the
claude client, `request = none` is a body that fails to bind,
`getSession`/`getConversation` are the store's answers (`none` for an
error), and `runClaude` is `LaunchAndWait` composed with the
error/result unwrapping of `runEphemeralQuery` (`none` for a launch
error or an error result).  The `GetSessionConversation` error branch
keeps going without event context, exactly as the source's
`err == nil && len(events) > 0` guard does. -/
def handleEphemeralChat (claudeAvailable : Bool) (sessionID : String)
    (request : Option EphemeralChatRequest)
    (getSession : Option StoreSession)
    (getConversation : Option (List ConversationEvent))
    (runClaude : SessionConfig → Option String) : ChatRun :=
  if ¬claudeAvailable then
    ⟨.httpError 503 "Claude Code not available", [], none⟩
  else
    match request with
    | none => ⟨.httpError 400 "Invalid request body", [], none⟩
    | some req =>
      if req.message = "" then
        ⟨.httpError 400 "Message is required", [], none⟩
      else
        let maxEvents := if req.maxEvents = 0 then 20 else req.maxEvents
        match getSession with
        | none =>
          ⟨.httpError 404 "Session not found", [.getSession sessionID], none⟩
        | some session =>
          let eventsPart :
              List ConversationEvent × List StoreOp :=
            if req.includeRecentEvents then
              match getConversation with
              | some events =>
                if 0 < events.length then
                  (recentEvents events maxEvents,
                    [.getSessionConversation sessionID])
                else ([], [.getSessionConversation sessionID])
              | none => ([], [.getSessionConversation sessionID])
            else ([], [])
          let sessionContext :=
            buildSessionContext session req.includeRecentEvents eventsPart.1
          let query := ephemeralQueryText sessionContext req.message
          let cfg := runEphemeralQueryConfig session query
          let ops := [StoreOp.getSession sessionID] ++ eventsPart.2
          let outcome :=
            match runClaude cfg with
            | none => ChatOutcome.httpError 500 "Failed to get AI response"
            | some content => ChatOutcome.success content
          ⟨outcome, ops, some cfg⟩

/-! ## Concrete instances used to evaluate the model -/

/-- A file-system oracle on which every read fails. -/
def noFS : String → Option (List Nat) := fun _ => none

/-- A file-system oracle holding one readable png. -/
def onePngFS : String → Option (List Nat) :=
  fun p => if p = "/tmp/shot.png" then some [77, 97, 110] else none

/-- Call context of a request whose approval is created pending. -/
def pendingReqCtx : ReqCtx :=
  ⟨false, "s1", "inp", some ⟨"appr-1", "pending"⟩, "t1", noFS⟩

/-- Call context of a request whose approval is created already denied
by auto-policy. -/
def deniedReqCtx : ReqCtx :=
  ⟨false, "s1", "inp", some ⟨"appr-1", "denied"⟩, "t1", noFS⟩

/-- Call context of a gateway in auto-deny-all mode. -/
def autoDenyReqCtx : ReqCtx :=
  ⟨true, "", "inp", none, "t1", noFS⟩

/-- Call context carrying no session id, auto-deny disabled. -/
def noSessionReqCtx : ReqCtx :=
  ⟨false, "", "inp", some ⟨"appr-1", "pending"⟩, "t1", noFS⟩

/-- A session record used to evaluate the chat handler. -/
def sampleSession : StoreSession :=
  ⟨"s1", "fix the tests", "working on it", "/repo", "running"⟩

/-- A conversation used to evaluate the chat handler. -/
def sampleEvents : List ConversationEvent :=
  [⟨"message", "user", "hello", ""⟩,
   ⟨"tool_call", "", "", "Bash"⟩,
   ⟨"message", "assistant", "done", ""⟩]

/-! ## Lemmas about the shared lookup and the listener -/

theorem alLoad_alStore_self {α : Type} :
    ∀ (m : List (String × α)) (k : String) (v : α),
      alLoad (alStore m k v) k = some v
  | [], k, v => by simp [alStore, alLoad]
  | (k1, w) :: rest, k, v => by
    by_cases h : k1 = k
    · simp [alStore, h, alLoad]
    · simp [alStore, h, alLoad, alLoad_alStore_self rest k v]

theorem alLoad_alStore_ne {α : Type} :
    ∀ (m : List (String × α)) (k k' : String) (v : α), k' ≠ k →
      alLoad (alStore m k v) k' = alLoad m k'
  | [], k, k', v, h => by simp [alStore, alLoad, Ne.symm h]
  | (k1, w) :: rest, k, k', v, h => by
    by_cases h1 : k1 = k
    · subst h1; simp [alStore, alLoad, Ne.symm h]
    · simp [alStore, h1, alLoad, alLoad_alStore_ne rest k k' v h]

theorem alLoad_alDelete_self {α : Type} :
    ∀ (m : List (String × α)) (k : String), alLoad (alDelete m k) k = none
  | [], k => by simp [alDelete, alLoad]
  | (k1, w) :: rest, k => by
    by_cases h : k1 = k
    · simp [alDelete, h, alLoad_alDelete_self rest k]
    · simp [alDelete, h, alLoad, alLoad_alDelete_self rest k]

/-- The listener never inserts a key that is absent: an unregistered
tool-use id stays unregistered across any event delivery. -/
theorem listenerStep_absent (m : PendingMap) (e : ResolvedEvent) (k : String)
    (h : alLoad m k = none) : alLoad (listenerStep m e) k = none := by
  unfold listenerStep
  by_cases hid : e.toolUseID = ""
  · simpa [hid] using h
  · cases hload : alLoad m e.toolUseID with
    | none => simpa [hid, hload] using h
    | some slot =>
      cases slot with
      | none =>
        have hne : k ≠ e.toolUseID := by
          intro hk; rw [hk, hload] at h; exact Option.noConfusion h
        simpa [hid, hload, alLoad_alStore_ne m e.toolUseID k _ hne] using h
      | some d => simpa [hid, hload] using h

/-- An event whose tool-use id has no registered handle is skipped: the
lookup is left unchanged. -/
theorem listenerStep_skip_absent (m : PendingMap) (e : ResolvedEvent)
    (h : alLoad m e.toolUseID = none) : listenerStep m e = m := by
  unfold listenerStep
  by_cases hid : e.toolUseID = ""
  · simp [hid]
  · simp [hid, h]

/-- An event whose registered handle already holds a buffered decision
is skipped: the non-blocking send falls into the `default` branch. -/
theorem listenerStep_skip_full (m : PendingMap) (e : ResolvedEvent)
    (d : ApprovalDecision) (h : alLoad m e.toolUseID = some (some d)) :
    listenerStep m e = m := by
  unfold listenerStep
  by_cases hid : e.toolUseID = ""
  · simp [hid]
  · simp [hid, h]

/-- A registered handle with a free slot receives the event's decision:
the non-blocking send succeeds and buffers it. -/
theorem listenerStep_deliver (m : PendingMap) (e : ResolvedEvent)
    (hne : e.toolUseID ≠ "") (h : alLoad m e.toolUseID = some none) :
    listenerStep m e = alStore m e.toolUseID (some (decisionOfEvent e)) := by
  unfold listenerStep
  simp [hne, h]

/-- In the `returned` phase only event deliveries are enabled, and they
preserve both the phase and the absence of any unregistered key. -/
theorem step_returned (ctx : ReqCtx) (cfg : Config) (r : ReqResult)
    (l : GLabel) (cfg2 : Config) (hp : cfg.phase = .returned r)
    (hs : step ctx cfg l = some cfg2) :
    cfg2.phase = .returned r ∧
      ∀ k, alLoad cfg.pending k = none → alLoad cfg2.pending k = none := by
  cases l with
  | runEntry => rw [step, hp] at hs; exact absurd hs (by simp)
  | register => rw [step, hp] at hs; exact absurd hs (by simp)
  | deliver e =>
    rw [step] at hs
    have hc : cfg2 = { cfg with pending := listenerStep cfg.pending e } :=
      (Option.some_injective _ hs).symm
    subst hc
    exact ⟨hp, fun k hk => listenerStep_absent cfg.pending e k hk⟩
  | receive => rw [step, hp] at hs; exact absurd hs (by simp)
  | cancel => rw [step, hp] at hs; exact absurd hs (by simp)
  | finish => rw [step, hp] at hs; exact absurd hs (by simp)

/-- Once the handler has returned, any further schedule leaves its
result in place and never re-registers an absent key. -/
theorem runTrace_returned (ctx : ReqCtx) (r : ReqResult) (k : String) :
    ∀ (ls : List GLabel) (cfg cfg2 : Config), cfg.phase = .returned r →
      alLoad cfg.pending k = none → runTrace ctx cfg ls = some cfg2 →
      cfg2.phase = .returned r ∧ alLoad cfg2.pending k = none
  | [], cfg, cfg2, hp, hk, hrun => by
    rw [runTrace] at hrun
    have : cfg = cfg2 := Option.some_injective _ hrun
    subst this; exact ⟨hp, hk⟩
  | l :: ls, cfg, cfg2, hp, hk, hrun => by
    rw [runTrace] at hrun
    cases hstep : step ctx cfg l with
    | none => rw [hstep] at hrun; exact absurd hrun (by simp)
    | some cfg1 =>
      rw [hstep] at hrun
      obtain ⟨hp1, habs⟩ := step_returned ctx cfg r l cfg1 hp hstep
      exact runTrace_returned ctx r k ls cfg1 cfg2 hp1 (habs k hk) hrun

/-- Once the handler has returned, its result is stable under any
further schedule. -/
theorem runTrace_returned_phase (ctx : ReqCtx) (r : ReqResult) :
    ∀ (ls : List GLabel) (cfg cfg2 : Config), cfg.phase = .returned r →
      runTrace ctx cfg ls = some cfg2 → cfg2.phase = .returned r
  | [], cfg, cfg2, hp, hrun => by
    rw [runTrace] at hrun
    have : cfg = cfg2 := Option.some_injective _ hrun
    subst this; exact hp
  | l :: ls, cfg, cfg2, hp, hrun => by
    rw [runTrace] at hrun
    cases hstep : step ctx cfg l with
    | none => rw [hstep] at hrun; exact absurd hrun (by simp)
    | some cfg1 =>
      rw [hstep] at hrun
      obtain ⟨hp1, _⟩ := step_returned ctx cfg r l cfg1 hp hstep
      exact runTrace_returned_phase ctx r ls cfg1 cfg2 hp1 hrun

/-! ## Lemmas about the decision commit -/

/-- A call on an approval that is no longer pending changes nothing,
publishes nothing, and reports AlreadyResolved. -/
theorem decideOne_resolved (st : ApprovalStore) (c : DecideCall)
    (s : ApprovalStatus) (hl : alLoad st c.toolUseID = some s)
    (hs : s ≠ .pending) : decideOne st c = (st, .alreadyResolved, none) := by
  unfold decideOne
  rw [hl]
  cases s with
  | pending => exact absurd rfl hs
  | approved => rfl
  | denied => rfl

/-- Any sequence of calls on an approval that is no longer pending
changes nothing, publishes nothing, and reports AlreadyResolved to
every caller. -/
theorem decideRun_resolved (st : ApprovalStore) (tid : String)
    (s : ApprovalStatus) (hl : alLoad st tid = some s) (hs : s ≠ .pending) :
    ∀ cs : List DecideCall, (∀ c ∈ cs, c.toolUseID = tid) →
      decideRun st cs = (st, List.replicate cs.length .alreadyResolved, [])
  | [], _ => by simp [decideRun]
  | c :: cs, hall => by
    have hc : c.toolUseID = tid := hall c (List.mem_cons_self c cs)
    have h1 : decideOne st c = (st, .alreadyResolved, none) :=
      decideOne_resolved st c s (by rw [hc]; exact hl) hs
    have h2 := decideRun_resolved st tid s hl hs cs
      (fun c2 hm => hall c2 (List.mem_cons_of_mem c hm))
    simp [decideRun, h1, h2, List.replicate_succ]

/-! ## Lemma about the recent-events window -/

/-- The handler keeps at most `maxEvents` conversation events. -/
theorem recentEvents_length_le (events : List ConversationEvent)
    (m : Int) (h : 0 ≤ m) :
    (recentEvents events m).length ≤ m.toNat := by
  unfold recentEvents
  split
  · next hlt =>
    rw [List.length_drop]
    omega
  · next hge =>
    omega

/-! ## Claim theorems -/

/-- C5: with global auto-deny-all enabled, every `request_approval` call
is answered immediately with behavior deny: the handler returns the
auto-deny response from its first branch for every session id, tool-use
id and (unconsulted) `CreateApproval` result — so no approval record is
created or persisted — and at the step level the call goes from `start`
straight to `returned` with the `pendingApprovals` lookup untouched, so
no wait handle is ever placed and the caller never blocks. -/
theorem autodeny_immediate_deny (ctx : ReqCtx) (m : PendingMap)
    (h : ctx.autoDenyAll = true) :
    requestApprovalEntry ctx.autoDenyAll ctx.sessionID ctx.input
        ctx.createResult ctx.toolUseID = .immediate autoDenyResponse
  ∧ step ctx ⟨m, .start⟩ .runEntry = some ⟨m, .returned (.ok autoDenyResponse)⟩ := by
  constructor
  · simp [requestApprovalEntry, h]
  · simp [step, requestApprovalEntry, h]

/-- Witness for C5 at a concrete auto-deny context and an empty
lookup. -/
theorem autodeny_immediate_deny_witness :
    requestApprovalEntry autoDenyReqCtx.autoDenyAll autoDenyReqCtx.sessionID
        autoDenyReqCtx.input autoDenyReqCtx.createResult autoDenyReqCtx.toolUseID
      = .immediate autoDenyResponse
  ∧ step autoDenyReqCtx ⟨[], .start⟩ .runEntry
      = some ⟨[], .returned (.ok autoDenyResponse)⟩ :=
  autodeny_immediate_deny autoDenyReqCtx [] rfl

/-- C4, counterexample: with auto-deny-all enabled the session id is
never examined, so a call with an absent (empty) session id does not
fail hard — it succeeds with the auto-deny response instead of the
MissingSession failure the claim requires for every request. -/
theorem missing_session_autodeny_succeeds :
    requestApprovalEntry true "" "inp" none "t1" = .immediate autoDenyResponse
  ∧ requestApprovalEntry true "" "inp" none "t1"
      ≠ .failure "missing session_id in context" := by
  exact ⟨rfl, by decide⟩

/-- C4 as amended: unless global auto-deny-all is enabled, the session
id extracted from the call context is checked before any approval logic
runs; an absent or empty session id fails the call hard with the
missing-session error for every (unconsulted) `CreateApproval` result,
so no approval record is created, and at the step level the call
returns the error with the lookup untouched.  `ServeHTTP` propagates
absent headers as the empty id rather than defaulting it. -/
theorem missing_session_hard_failure (ctx : ReqCtx) (m : PendingMap)
    (hauto : ctx.autoDenyAll = false) (hsid : ctx.sessionID = "") :
    requestApprovalEntry ctx.autoDenyAll ctx.sessionID ctx.input
        ctx.createResult ctx.toolUseID = .failure "missing session_id in context"
  ∧ step ctx ⟨m, .start⟩ .runEntry
      = some ⟨m, .returned (.err "missing session_id in context")⟩
  ∧ extractSessionID "" "" = "" := by
  refine ⟨?_, ?_, rfl⟩
  · simp [requestApprovalEntry, hauto, hsid]
  · simp [step, requestApprovalEntry, hauto, hsid]

/-- Witness for the amended C4 at a concrete context with an empty
session id. -/
theorem missing_session_hard_failure_witness :
    requestApprovalEntry noSessionReqCtx.autoDenyAll noSessionReqCtx.sessionID
        noSessionReqCtx.input noSessionReqCtx.createResult noSessionReqCtx.toolUseID
      = .failure "missing session_id in context"
  ∧ step noSessionReqCtx ⟨[], .start⟩ .runEntry
      = some ⟨[], .returned (.err "missing session_id in context")⟩
  ∧ extractSessionID "" "" = "" :=
  missing_session_hard_failure noSessionReqCtx [] rfl rfl

/-- C2, counterexample: an approval returned by `CreateApproval` already
resolved as denied is not answered immediately — the handler only
short-circuits on status `approved`, so a denied-at-creation approval
falls through to `park`: the handler registers a wait handle and blocks,
contradicting the claim that it returns a deny response at once with no
registration. -/
theorem denied_creation_parks :
    requestApprovalEntry false "s1" "inp" (some ⟨"appr-1", "denied"⟩) "t1"
      = .park "t1"
  ∧ step deniedReqCtx ⟨[], .start⟩ .runEntry = some ⟨[], .created "t1"⟩ :=
  ⟨rfl, rfl⟩

/-- C2 as amended: only an approval created with status `approved` is
translated directly into the allow response carrying the original input
and returned immediately with no registration; an approval created with
any other status — including one auto-resolved as denied — makes the
handler register a wait handle and block, exactly as for a pending
one. -/
theorem approved_creation_immediate (sessionID input tid : String)
    (ca : CreateApprovalResult) (hsid : sessionID ≠ "") :
    (ca.status = "approved" →
      requestApprovalEntry false sessionID input (some ca) tid
        = .immediate (autoApproveResponse input))
  ∧ (ca.status ≠ "approved" →
      requestApprovalEntry false sessionID input (some ca) tid = .park tid) := by
  constructor
  · intro h; simp [requestApprovalEntry, hsid, h]
  · intro h; simp [requestApprovalEntry, hsid, h]

/-- Witness for the amended C2 at a concrete auto-approved creation. -/
theorem approved_creation_immediate_witness :
    requestApprovalEntry false "s1" "inp" (some ⟨"appr-1", "approved"⟩) "t1"
      = .immediate (autoApproveResponse "inp") :=
  (approved_creation_immediate "s1" "inp" "t1" ⟨"appr-1", "approved"⟩
    (by decide)).1 rfl

/-- C7: the decision a waiting call receives is translated as the claim
states: approved gives behavior allow with the original input under
`updatedInput` and no message; denied gives behavior deny with the
human's comment under `message` and no input; and the decision's image
attachments are inlined under `images` as the list `encodeImages`
produces — each element the extension-derived MIME type plus the
standard base64 encoding of the file's bytes — whenever the decision
carries paths and at least one of them encodes. -/
theorem translate_decision_shape (readFile : String → Option (List Nat))
    (input : String) (d : ApprovalDecision) :
    (translateDecision readFile input d).behavior
        = (if d.approved then "allow" else "deny")
  ∧ (translateDecision readFile input d).updatedInput
        = (if d.approved then some input else none)
  ∧ (translateDecision readFile input d).message
        = (if d.approved then none else some d.comment)
  ∧ (translateDecision readFile input d).images
        = (if 0 < d.imagePaths.length ∧
              0 < (encodeImages readFile d.imagePaths).length
            then some (encodeImages readFile d.imagePaths) else none) := by
  unfold translateDecision
  by_cases h1 : 0 < d.imagePaths.length <;>
    by_cases h2 : 0 < (encodeImages readFile d.imagePaths).length <;>
    cases hA : d.approved <;>
    simp [h1, h2]

/-- Per-path body of `encodeImages`: what one input path contributes to
the output. -/
def encodeOneImage (readFile : String → Option (List Nat)) (p : String) :
    Option EncodedImage :=
  match readFile p with
  | none => none
  | some data =>
    if detectMimeType p = "" then none
    else some ⟨detectMimeType p, base64Encode data⟩

theorem encodeImages_eq_filterMap (readFile : String → Option (List Nat)) :
    ∀ paths : List String,
      encodeImages readFile paths = paths.filterMap (encodeOneImage readFile)
  | [] => by simp [encodeImages]
  | p :: rest => by
    cases h : readFile p with
    | none =>
      simp [encodeImages, h, encodeOneImage,
        encodeImages_eq_filterMap readFile rest]
    | some data =>
      by_cases hm : detectMimeType p = ""
      · simp [encodeImages, h, hm, encodeOneImage,
          encodeImages_eq_filterMap readFile rest]
      · simp [encodeImages, h, hm, encodeOneImage,
          encodeImages_eq_filterMap readFile rest]

/-- The skip condition on the MIME side: the extension, lower-cased, is
outside the four recognised image types (five extension spellings). -/
theorem detectMimeType_empty_iff (p : String) :
    detectMimeType p = "" ↔
      ¬ lowerAscii (filepathExt p) ∈
        ([".png", ".jpg", ".jpeg", ".gif", ".webp"] : List String) := by
  unfold detectMimeType
  dsimp only
  split_ifs with h1 h2 h3 h4
  · simp_all
  · rcases h2 with h2 | h2 <;> simp_all
  · simp_all
  · simp_all
  · simp_all

/-- C10: `encodeImages` is total and never fails: on any oracle and any
path list it equals the filter-map that drops every path whose read
fails or whose lower-cased extension is none of .png, .jpg, .jpeg,
.gif, .webp, and keeps, in input order, the extension-derived MIME type
with the standard base64 encoding of the file's bytes; consequently the
output is never longer than the input. -/
theorem encodeImages_total_spec (readFile : String → Option (List Nat))
    (paths : List String) :
    encodeImages readFile paths = paths.filterMap (encodeOneImage readFile)
  ∧ (encodeImages readFile paths).length ≤ paths.length
  ∧ (∀ p : String, encodeOneImage readFile p = none ↔
      (readFile p = none ∨
        ¬ lowerAscii (filepathExt p) ∈
          ([".png", ".jpg", ".jpeg", ".gif", ".webp"] : List String)))
  ∧ (∀ p data, readFile p = some data → detectMimeType p ≠ "" →
      encodeOneImage readFile p
        = some ⟨detectMimeType p, base64Encode data⟩) := by
  refine ⟨encodeImages_eq_filterMap readFile paths, ?_, ?_, ?_⟩
  · rw [encodeImages_eq_filterMap readFile paths]
    exact List.length_filterMap_le _ _
  · intro p
    unfold encodeOneImage
    cases h : readFile p with
    | none => simp [h]
    | some data =>
      by_cases hm : detectMimeType p = ""
      · simp [h, hm, (detectMimeType_empty_iff p).mp hm]
      · have hmem : lowerAscii (filepathExt p) ∈
            ([".png", ".jpg", ".jpeg", ".gif", ".webp"] : List String) := by
          by_contra hc
          exact hm ((detectMimeType_empty_iff p).mpr hc)
        simp [h, hm, hmem]
  · intro p data h hm
    simp [encodeOneImage, h, hm]

/-- Witness for C10 on a concrete oracle and path list: one readable
png kept, one unreadable path and one unknown extension skipped. -/
theorem encodeImages_total_spec_witness :
    encodeImages onePngFS ["/tmp/shot.png", "/tmp/missing.png", "/tmp/shot.bmp"]
      = List.filterMap (encodeOneImage onePngFS)
          ["/tmp/shot.png", "/tmp/missing.png", "/tmp/shot.bmp"]
  ∧ (encodeImages onePngFS
      ["/tmp/shot.png", "/tmp/missing.png", "/tmp/shot.bmp"]).length ≤ 3
  ∧ encodeImages onePngFS ["/tmp/shot.png", "/tmp/missing.png", "/tmp/shot.bmp"]
      = [⟨"image/png", "TWFu"⟩] := by
  have h := encodeImages_total_spec onePngFS
    ["/tmp/shot.png", "/tmp/missing.png", "/tmp/shot.bmp"]
  exact ⟨h.1, h.2.1, by decide⟩

/-- C8: for an approval-resolved event whose tool-use id has no
registered wait handle, or whose registered capacity-1 slot is already
full, the listener's delivery is skipped — the lookup is unchanged — and
the loop goes on to process the remaining events exactly as if the event
had not occurred.  The listener body is a total function, so no event
can make it block or panic; an unmatched event is handled by the same
skip as a full slot, not by an error path. -/
theorem listener_skip_unmatched (m : PendingMap) (e : ResolvedEvent)
    (es : List ResolvedEvent)
    (h : alLoad m e.toolUseID = none ∨
      ∃ d, alLoad m e.toolUseID = some (some d)) :
    listenerStep m e = m ∧ listenerRun m (e :: es) = listenerRun m es := by
  have hskip : listenerStep m e = m := by
    rcases h with h | ⟨d, h⟩
    · exact listenerStep_skip_absent m e h
    · exact listenerStep_skip_full m e d h
  exact ⟨hskip, by simp [listenerRun, hskip]⟩

/-- Witness for C8: an event for an unregistered id is skipped and the
rest of the stream is processed unchanged. -/
theorem listener_skip_unmatched_witness :
    listenerStep [("t1", (none : Option ApprovalDecision))]
        ⟨"t2", false, "no", []⟩
      = [("t1", none)]
  ∧ listenerRun [("t1", (none : Option ApprovalDecision))]
        [⟨"t2", false, "no", []⟩, ⟨"t1", true, "yes", []⟩]
      = listenerRun [("t1", none)] [⟨"t1", true, "yes", []⟩] :=
  listener_skip_unmatched [("t1", none)] ⟨"t2", false, "no", []⟩
    [⟨"t1", true, "yes", []⟩] (Or.inl rfl)

/-- C1, counterexample: the wait handle is registered only after
`CreateApprovalWithToolUseID` has returned, so a decision submitted in
the window between that return and the `pendingApprovals.Store` is
dropped for lack of a registered handle.  The trace below runs the
handler body (the approval is created pending), then lets the listener
process the decision event for the same tool-use id — skipped, because
nothing is registered — and only then registers.  The caller is left
waiting on an empty slot, and with no further event its `receive` is
not enabled: the resolution was dropped and the waiter is never
unblocked, refuting the claim that every decision submitted after
`CreateApproval` returns reaches the waiting caller. -/
theorem registration_race_drops_decision :
    runTrace pendingReqCtx ⟨[], .start⟩
        [.runEntry, .deliver ⟨"t1", true, "ok", []⟩, .register]
      = some ⟨[("t1", none)], .waiting "t1"⟩
  ∧ step pendingReqCtx ⟨[("t1", none)], .waiting "t1"⟩ .receive = none :=
  ⟨rfl, rfl⟩

/-- C1 as amended: the wait handle is registered before the caller
parks in the select, and any decision delivered by the listener after
the registration — rather than merely after `CreateApproval` returns —
is never dropped: the non-blocking send buffers it in the capacity-1
slot, the waiting caller's receive is enabled and yields exactly the
event's outcome, the subsequent return carries the translated response,
and once the caller has returned no schedule can wake it again. -/
theorem registered_decision_unblocks_once (ctx : ReqCtx) (cfg : Config)
    (tid : String) (e : ResolvedEvent)
    (hph : cfg.phase = .waiting tid)
    (hreg : alLoad cfg.pending tid = some none)
    (hid : e.toolUseID = tid) (hne : tid ≠ "") :
    step ctx cfg (.deliver e)
      = some ⟨alStore cfg.pending tid (some (decisionOfEvent e)), .waiting tid⟩
  ∧ step ctx ⟨alStore cfg.pending tid (some (decisionOfEvent e)), .waiting tid⟩
        .receive
      = some ⟨alStore (alStore cfg.pending tid (some (decisionOfEvent e))) tid none,
          .gotDecision tid (decisionOfEvent e)⟩
  ∧ step ctx ⟨alStore (alStore cfg.pending tid (some (decisionOfEvent e))) tid none,
        .gotDecision tid (decisionOfEvent e)⟩ .finish
      = some ⟨alDelete
            (alStore (alStore cfg.pending tid (some (decisionOfEvent e))) tid none) tid,
          .returned (.ok (translateDecision ctx.readFile ctx.input (decisionOfEvent e)))⟩
  ∧ (∀ (r : ReqResult) (ls : List GLabel) (cfg2 cfg3 : Config),
      cfg2.phase = .returned r → runTrace ctx cfg2 ls = some cfg3 →
        cfg3.phase = .returned r) := by
  have hne2 : e.toolUseID ≠ "" := by rw [hid]; exact hne
  have hreg2 : alLoad cfg.pending e.toolUseID = some none := by rw [hid]; exact hreg
  refine ⟨?_, ?_, ?_, ?_⟩
  · rw [step, listenerStep_deliver cfg.pending e hne2 hreg2, hid, hph]
  · rw [step]
    simp [alLoad_alStore_self]
  · rw [step]
  · intro r ls cfg2 cfg3 hp2 hrun
    exact runTrace_returned_phase ctx r ls cfg2 cfg3 hp2 hrun

/-- Witness for the amended C1: on a freshly registered handle the
delivered decision is buffered, received, and returned as the allow
response. -/
theorem registered_decision_unblocks_once_witness :
    step pendingReqCtx ⟨[("t1", none)], .waiting "t1"⟩
        (.deliver ⟨"t1", true, "ok", []⟩)
      = some ⟨[("t1", some ⟨true, "ok", []⟩)], .waiting "t1"⟩
  ∧ step pendingReqCtx ⟨[("t1", some ⟨true, "ok", []⟩)], .waiting "t1"⟩ .receive
      = some ⟨[("t1", none)], .gotDecision "t1" ⟨true, "ok", []⟩⟩
  ∧ step pendingReqCtx ⟨[("t1", none)], .gotDecision "t1" ⟨true, "ok", []⟩⟩ .finish
      = some ⟨[], .returned (.ok ⟨"allow", some "inp", none, none⟩)⟩ := by
  have h := registered_decision_unblocks_once pendingReqCtx
    ⟨[("t1", none)], .waiting "t1"⟩ "t1" ⟨"t1", true, "ok", []⟩
    rfl rfl rfl (by decide)
  exact ⟨h.1, h.2.1, h.2.2.1⟩

/-- C6: the wait handle is deregistered exactly once whichever branch
ends the wait: the `finish` step out of either the decision branch or
the cancellation branch performs the one deferred delete and returns,
after which the lookup holds no entry for the id; a decision event
arriving once the entry is gone is delivered to no one (the lookup is
left exactly as it was); and no later schedule resurrects the entry or
changes the returned result. -/
theorem wait_handle_deregistered_once (ctx : ReqCtx) (cfg : Config)
    (tid : String) :
    (∀ d : ApprovalDecision, cfg.phase = .gotDecision tid d →
      step ctx cfg .finish = some ⟨alDelete cfg.pending tid,
        .returned (.ok (translateDecision ctx.readFile ctx.input d))⟩)
  ∧ (cfg.phase = .ctxCancelled tid →
      step ctx cfg .finish = some ⟨alDelete cfg.pending tid,
        .returned (.err "context canceled")⟩)
  ∧ alLoad (alDelete cfg.pending tid) tid = none
  ∧ (∀ e : ResolvedEvent, e.toolUseID = tid → alLoad cfg.pending tid = none →
      listenerStep cfg.pending e = cfg.pending)
  ∧ (∀ (r : ReqResult) (ls : List GLabel) (cfg2 : Config),
      cfg.phase = .returned r → alLoad cfg.pending tid = none →
      runTrace ctx cfg ls = some cfg2 →
      cfg2.phase = .returned r ∧ alLoad cfg2.pending tid = none) := by
  refine ⟨?_, ?_, alLoad_alDelete_self cfg.pending tid, ?_, ?_⟩
  · intro d hp; rw [step, hp]
  · intro hp; rw [step, hp]
  · intro e he h
    refine listenerStep_skip_absent cfg.pending e ?_
    rw [he]; exact h
  · intro r ls cfg2 hp h hrun
    exact runTrace_returned ctx r tid ls cfg cfg2 hp h hrun

/-- Witness for C6: a cancelled waiter's `finish` removes the entry, and
a decision event arriving afterwards is delivered to no one. -/
theorem wait_handle_deregistered_once_witness :
    step pendingReqCtx ⟨[("t1", none)], .ctxCancelled "t1"⟩ .finish
      = some ⟨[], .returned (.err "context canceled")⟩
  ∧ listenerStep [] ⟨"t1", true, "late", []⟩ = [] := by
  have h := wait_handle_deregistered_once pendingReqCtx
    ⟨[("t1", none)], .ctxCancelled "t1"⟩ "t1"
  have h2 := wait_handle_deregistered_once pendingReqCtx
    ⟨[], .returned (.err "context canceled")⟩ "t1"
  exact ⟨h.2.1 rfl, h2.2.2.2.1 ⟨"t1", true, "late", []⟩ rfl rfl⟩

/-- C3 (against the spec-modelled Approval Manager, whose `Decide` body
is not among the sources): for an approval that is pending, any
linearisation of concurrent decision submissions on its tool-use id
commits exactly the first caller's outcome — the store ends with that
approved/denied status — returns ok to that caller alone while every
other caller observes AlreadyResolved, and publishes exactly one
resolution event, carrying the winning call's payload. -/
theorem decide_commits_exactly_once (st : ApprovalStore) (tid : String)
    (c : DecideCall) (cs : List DecideCall)
    (hp : alLoad st tid = some .pending) (hc : c.toolUseID = tid)
    (hall : ∀ c2 ∈ cs, c2.toolUseID = tid) :
    decideRun st (c :: cs)
      = (alStore st tid (if c.approve then .approved else .denied),
         .ok :: List.replicate cs.length .alreadyResolved,
         [⟨tid, c.approve, c.comment, c.attachments⟩])
  ∧ ((DecideResult.ok :: List.replicate cs.length .alreadyResolved).count .ok = 1)
  ∧ alLoad (alStore st tid (if c.approve then .approved else .denied)) tid
      = some (if c.approve then .approved else .denied) := by
  have h1 : decideOne st c
      = (alStore st tid (if c.approve then .approved else .denied), .ok,
         some ⟨tid, c.approve, c.comment, c.attachments⟩) := by
    unfold decideOne
    rw [hc, hp]
  have hst1 := alLoad_alStore_self st tid
    (if c.approve then ApprovalStatus.approved else .denied)
  have hnp : (if c.approve then ApprovalStatus.approved else .denied)
      ≠ .pending := by
    cases c.approve <;> simp
  have h2 := decideRun_resolved _ tid _ hst1 hnp cs hall
  have hcount : ∀ n : Nat,
      (List.replicate n DecideResult.alreadyResolved).count .ok = 0 := by
    intro n
    induction n with
    | zero => rfl
    | succ n ih => simp [List.replicate_succ, List.count_cons, ih]
  refine ⟨?_, ?_, hst1⟩
  · simp [decideRun, h1, h2]
  · simp [List.count_cons, hcount cs.length]

/-- Witness for C3: two racing decisions on approval "t2"; the first
(approve, "looks fine") wins and publishes the one event, the second
observes AlreadyResolved. -/
theorem decide_commits_exactly_once_witness :
    decideRun [("t2", ApprovalStatus.pending)]
        [⟨"t2", true, "looks fine", []⟩, ⟨"t2", false, "nope", []⟩]
      = ([("t2", ApprovalStatus.approved)],
         [DecideResult.ok, .alreadyResolved],
         [⟨"t2", true, "looks fine", []⟩])
  ∧ ([DecideResult.ok, .alreadyResolved].count .ok = 1)
  ∧ alLoad [("t2", ApprovalStatus.approved)] "t2" = some .approved := by
  have h := decide_commits_exactly_once [("t2", .pending)] "t2"
    ⟨"t2", true, "looks fine", []⟩ [⟨"t2", false, "nope", []⟩]
    rfl rfl (by simp)
  simpa using h

/-- C9: the ephemeral chat handler issues only read operations against
the store on every path — the question and answer are never persisted —
and every model query it launches is single-turn (`MaxTurns = 1`); on
the full path its prompt is exactly the template built from the session
record, the user's question, and the kept suffix of the conversation,
which holds at most `MaxEvents` events, `MaxEvents` defaulting to 20
when the request gives 0. -/
theorem ephemeral_chat_single_turn_no_writes
    (avail : Bool) (sid : String) (request : Option EphemeralChatRequest)
    (gs : Option StoreSession) (gc : Option (List ConversationEvent))
    (rc : SessionConfig → Option String) :
    (∀ op ∈ (handleEphemeralChat avail sid request gs gc rc).ops,
      op.isRead = true)
  ∧ (∀ cfgL ∈ (handleEphemeralChat avail sid request gs gc rc).launched,
      cfgL.maxTurns = 1)
  ∧ (∀ (req : EphemeralChatRequest) (session : StoreSession)
        (events : List ConversationEvent),
      request = some req → gs = some session → gc = some events →
      avail = true → req.message ≠ "" → req.includeRecentEvents = true →
      0 < events.length → 0 ≤ req.maxEvents →
      (handleEphemeralChat avail sid request gs gc rc).launched
        = some (runEphemeralQueryConfig session (ephemeralQueryText
            (buildSessionContext session true
              (recentEvents events
                (if req.maxEvents = 0 then 20 else req.maxEvents)))
            req.message))
      ∧ (recentEvents events
            (if req.maxEvents = 0 then 20 else req.maxEvents)).length
          ≤ (if req.maxEvents = 0 then 20 else req.maxEvents).toNat) := by
  refine ⟨?_, ?_, ?_⟩
  · unfold handleEphemeralChat
    repeat' split
    all_goals simp_all [StoreOp.isRead]
  · unfold handleEphemeralChat
    repeat' split
    all_goals simp_all [runEphemeralQueryConfig]
  · intro req session events hreq hgs hgc havail hm hinc hlen hnn
    subst hreq; subst hgs; subst hgc; subst havail
    constructor
    · unfold handleEphemeralChat
      simp [hm, hinc, hlen]
    · refine recentEvents_length_le events _ ?_
      split <;> omega

/-- Witness for C9 at a concrete session, conversation and request with
`MaxEvents` 0 (defaulted to 20). -/
theorem ephemeral_chat_single_turn_no_writes_witness :
    (handleEphemeralChat true "s1" (some ⟨"what is happening?", true, 0⟩)
        (some sampleSession) (some sampleEvents)
        (fun _ => some "answer")).launched
      = some (runEphemeralQueryConfig sampleSession (ephemeralQueryText
          (buildSessionContext sampleSession true (recentEvents sampleEvents 20))
          "what is happening?"))
  ∧ (recentEvents sampleEvents 20).length ≤ (20 : Int).toNat := by
  have h := ephemeral_chat_single_turn_no_writes true "s1"
    (some ⟨"what is happening?", true, 0⟩) (some sampleSession)
    (some sampleEvents) (fun _ => some "answer")
  have h3 := h.2.2 ⟨"what is happening?", true, 0⟩ sampleSession sampleEvents
    rfl rfl rfl rfl (by decide) rfl (by decide) (by decide)
  simpa using h3

end HLD
